import Mathlib

/-!
# Verification of the request-logging middleware

Shallow embedding of `src/loggingMiddleware.js`: a JSON value model for the
JavaScript data handled by the middleware, direct translations of the pure
helpers (`redactObjectKeys`, `limitSize`, `safeSerialize`, `shouldSkipPath`,
`generateJwt`, `sendLog`), and an explicit state machine for the event-driven
interceptor (`loggingMiddleware` / `onFinish`): response events `finish` and
`close` fire listeners, the handler unregisters both listeners, and we record
built entries, local sink calls, remote dispatches and diagnostic reports in
a `MidState`.

External primitives of the Node runtime appear as explicit parameters:
the wall clock and monotonic duration are inputs (`nowIso`, `durationMs`),
`crypto.createHmac('sha256', ...)` is a function parameter of `generateJwt`,
and the network used by `postToRemote` is a function parameter returning
`Except` (so that a failing transport is expressible).
-/

set_option linter.unusedVariables false

namespace LogMw

/-- JavaScript JSON values (the serializable fragment handled by the code). -/
inductive Json where
  | null : Json
  | bool (b : Bool) : Json
  | num (n : Int) : Json
  | str (s : String) : Json
  | arr (xs : List Json) : Json
  | obj (kvs : List (String × Json)) : Json

/-- Lower-case hex digit, used by the JSON string escaper. -/
def hexDigit (n : Nat) : String :=
  String.singleton ("0123456789abcdef".data.getD n '0')

/-- Escaping of one character inside a JSON string literal
(model of the escaping performed by `JSON.stringify`). -/
def jsonEscapeChar (c : Char) : String :=
  if c = '"' then "\\\""
  else if c = '\\' then "\\\\"
  else if c = '\n' then "\\n"
  else if c = '\r' then "\\r"
  else if c = '\t' then "\\t"
  else if c = '\x08' then "\\b"
  else if c = '\x0c' then "\\f"
  else if c.toNat < 32 then "\\u00" ++ hexDigit (c.toNat / 16) ++ hexDigit (c.toNat % 16)
  else String.singleton c

/-- A JSON string literal with quotes, as produced by `JSON.stringify`. -/
def jsonQuote (s : String) : String :=
  "\"" ++ String.join (s.data.map jsonEscapeChar) ++ "\""

mutual

/-- Model of `JSON.stringify` on the serializable JSON fragment. -/
def jsonStringify : Json → String
  | .null => "null"
  | .bool true => "true"
  | .bool false => "false"
  | .num n => toString n
  | .str s => jsonQuote s
  | .arr xs => "[" ++ jsonArrayBody xs ++ "]"
  | .obj kvs => "\x7b" ++ jsonObjBody kvs ++ "\x7d"

/-- Comma-separated serialization of array elements. -/
def jsonArrayBody : List Json → String
  | [] => ""
  | [x] => jsonStringify x
  | x :: y :: rest => jsonStringify x ++ "," ++ jsonArrayBody (y :: rest)

/-- Comma-separated serialization of object members. -/
def jsonObjBody : List (String × Json) → String
  | [] => ""
  | [(k, v)] => jsonQuote k ++ ":" ++ jsonStringify v
  | (k, v) :: p :: rest => jsonQuote k ++ ":" ++ jsonStringify v ++ "," ++ jsonObjBody (p :: rest)

end

/-- Source lines 125-128, `safeSerialize`:
`JSON.parse(JSON.stringify(value))`.  `undefined` stays `undefined`
(modelled as `none`); a serializable JSON value round-trips unchanged
(the parse of its own serialization), and the `try/catch` never fires on
acyclic data, so the function is the identity on `some`. -/
def safeSerialize (value : Option Json) : Option Json :=
  match value with
  | none => none
  | some j => some j

/-- Source line 117: `typeof value === 'string' ? value : JSON.stringify(value)`.
`JSON.stringify(undefined)` is `undefined` (`none`). -/
def serializedOf (value : Option Json) : Option String :=
  match value with
  | none => none
  | some (Json.str s) => some s
  | some j => some (jsonStringify j)

/-- JavaScript `str.slice(0, n)`: the first `n` characters. -/
def sliceTo (s : String) (n : Nat) : String :=
  String.mk (s.data.take n)

/-- Source lines 115-123, `limitSize`: serialize, drop falsy text
(`undefined` or the empty string, via `if (!str) return undefined`), and
truncate over-long text to `max` characters plus an elision marker. -/
def limitSize (value : Option Json) (max : Nat) : Option String :=
  match serializedOf value with
  | none => none
  | some s =>
    if s = "" then none
    else if max < s.length then
      some (sliceTo s max ++ "...(" ++ toString (s.length - max) ++ " more bytes)")
    else some s

/-- ASCII lower-casing of one character (model of the case folding
`String.prototype.toLowerCase` performs on the ASCII keys the code
handles). -/
def lowerChar (c : Char) : Char :=
  if 65 ≤ c.toNat ∧ c.toNat ≤ 90 then Char.ofNat (c.toNat + 32) else c

/-- `String.prototype.toLowerCase` on ASCII strings. -/
def lowerStr (s : String) : String := String.mk (s.data.map lowerChar)

/-- `String.prototype.startsWith`. -/
def jsStartsWith (p s : String) : Bool := p.data.isPrefixOf s.data

/-- The fixed redaction marker of source line 110. -/
def redactMarker : String := "[REDACTED]"

/-- Source lines 105-113, `redactObjectKeys`: lower-case the redaction key
set, then copy the mapping replacing values whose key matches
case-insensitively.  `none` models an `undefined` argument (`for...in`
over `undefined` performs no iterations, `keysToRedact || []`). -/
def redactObjectKeys (obj : Option (List (String × String)))
    (keysToRedact : Option (List String)) : List (String × String) :=
  let lowered := (keysToRedact.getD []).map (fun k => lowerStr k)
  (obj.getD []).map (fun kv =>
    (kv.1, if lowered.contains (lowerStr kv.1) then redactMarker else kv.2))

/-- Default `redactKeys` of source line 10. -/
def defaultRedactKeys : List String :=
  ["authorization", "cookie", "set-cookie", "clientsecret", "password",
   "access_token", "refresh_token"]

/-- An exemption rule of `skipPaths`: a literal string (matched with
`url.startsWith(p)`) or a regular expression (matched with `p.test(url)`),
modelled as a total predicate on paths. -/
inductive SkipRule where
  | lit (p : String) : SkipRule
  | pat (test : String → Bool) : SkipRule

/-- One rule's match, source lines 134-135. -/
def ruleMatches (url : String) : SkipRule → Bool
  | .lit p => jsStartsWith p url
  | .pat t => t url

/-- Source lines 130-139, `shouldSkipPath`: empty list never matches,
otherwise the first matching rule wins. -/
def shouldSkipPath (url : String) (skipPaths : List SkipRule) : Bool :=
  match skipPaths with
  | [] => false
  | r :: rest => if ruleMatches url r then true else shouldSkipPath url rest

/-! ## The interceptor state machine -/

/-- The inbound request, as read by the middleware.  Header names are the
lower-cased names Node exposes on `req.headers`. -/
structure Request where
  method : String
  url : String
  originalUrl : String
  ip : String
  remoteAddress : Option String
  headers : List (String × String)
  body : Option Json

/-- Source line 26: `req.originalUrl || req.url`. -/
def effectiveUrl (req : Request) : String :=
  if req.originalUrl = "" then req.url else req.originalUrl

/-- Property lookup on a header mapping. -/
def lookupHeader (headers : List (String × String)) (name : String) : Option String :=
  headers.lookup name

/-- Source line 27:
`req.ip || req.headers['x-forwarded-for'] || req.connection?.remoteAddress || '-'`. -/
def computeIp (req : Request) : String :=
  if req.ip ≠ "" then req.ip
  else
    let xff := (lookupHeader req.headers "x-forwarded-for").getD ""
    if xff ≠ "" then xff
    else
      let ra := req.remoteAddress.getD ""
      if ra ≠ "" then ra else "-"

/-- The structured record of source lines 40-53.  `none` in an optional
field models an absent / `undefined` property. -/
structure LogEntry where
  time : String
  requestId : String
  method : String
  url : String
  status : Nat
  duration : Int
  ip : String
  userAgent : String
  contentLength : Option Nat
  requestHeaders : Option (List (String × String))
  requestBody : Option String
deriving Repr, DecidableEq

/-- The interceptor configuration (source lines 2-22) after option
destructuring.  Strings use `""` for an absent value, matching JavaScript
falsiness of `undefined` and `''`.  User-supplied functions (`format`,
`skip`, `logger`) may throw, modelled with `Except`. -/
structure Config where
  format : Option (LogEntry → Except String String)
  skip : Option (LogEntry → Request → Except String Bool)
  json : Bool
  includeHeaders : Bool
  includeBody : Bool
  redactKeys : List String
  maxBodyLength : Nat
  requestIdHeader : String
  skipPaths : List SkipRule
  remoteLogUrl : String
  authToken : String
  remoteStack : String
  remotePackage : String
  defaultLevel : String
  logClientId : String
  logger : String → Except String Unit

/-- Ambient data of one completion: wall-clock time, measured duration,
and the response state read by the handler (source lines 37-39, 45). -/
structure RunParams where
  nowIso : String
  durationMs : Int
  status : Nat
  contentLengthHeader : Option String

/-- Source line 39: `Number(res.getHeader('content-length')) || undefined`;
a missing header, a non-numeric value and `0` are all falsy. -/
def parseContentLength (h : Option String) : Option Nat :=
  match h with
  | none => none
  | some s =>
    match s.toNat? with
    | some 0 => none
    | some n => some n
    | none => none

/-- The remote delivery payload of source lines 63-70. -/
structure RemotePayload where
  stack : String
  level : String
  pkg : String
  message : String
  context : LogEntry
  logId : Option String
deriving Repr, DecidableEq

/-- One dispatch to the remote endpoint: `postToRemote(remoteLogUrl, authToken, payload)`. -/
structure RemoteCall where
  url : String
  token : String
  payload : RemotePayload
deriving Repr, DecidableEq

/-- Observable per-request state: which listeners are registered, the
entries built and the side effects that occurred. -/
structure MidState where
  finishReg : Bool
  closeReg : Bool
  built : List LogEntry
  localCalls : List String
  remoteCalls : List RemoteCall
  diagnostics : List String
deriving Repr, DecidableEq

/-- Everything `onFinish` closes over. -/
structure Ctx where
  cfg : Config
  req : Request
  params : RunParams
  requestId : String

/-- Source line 62: `remoteLogUrl && authToken && remoteStack && remotePackage`. -/
def remoteConfigured (cfg : Config) : Bool :=
  (cfg.remoteLogUrl != "") && (cfg.authToken != "") &&
  (cfg.remoteStack != "") && (cfg.remotePackage != "")

/-- Construction of the `entry` object, source lines 40-53. -/
def buildEntry (ctx : Ctx) : LogEntry :=
  let cfg := ctx.cfg
  let req := ctx.req
  let base : LogEntry :=
    { time := ctx.params.nowIso
      requestId := ctx.requestId
      method := req.method
      url := effectiveUrl req
      status := ctx.params.status
      duration := ctx.params.durationMs
      ip := computeIp req
      userAgent :=
        match lookupHeader req.headers "user-agent" with
        | some v => if v = "" then "-" else v
        | none => "-"
      contentLength := parseContentLength ctx.params.contentLengthHeader
      requestHeaders := none
      requestBody := none }
  let withHeaders :=
    if cfg.includeHeaders then
      { base with requestHeaders := some (redactObjectKeys (some req.headers) (some cfg.redactKeys)) }
    else base
  if cfg.includeBody then
    { withHeaders with requestBody := limitSize (safeSerialize req.body) cfg.maxBodyLength }
  else withHeaders

/-- `JSON.stringify(entry)` (source line 59): fields in insertion order,
`undefined`-valued optional fields omitted. -/
def entryToJson (e : LogEntry) : Json :=
  Json.obj
    ([("time", Json.str e.time), ("requestId", Json.str e.requestId),
      ("method", Json.str e.method), ("url", Json.str e.url),
      ("status", Json.num e.status), ("duration", Json.num e.duration),
      ("ip", Json.str e.ip), ("userAgent", Json.str e.userAgent)]
     ++ (match e.contentLength with
         | some n => [("contentLength", Json.num n)]
         | none => [])
     ++ (match e.requestHeaders with
         | some hs => [("requestHeaders", Json.obj (hs.map (fun kv => (kv.1, Json.str kv.2))))]
         | none => [])
     ++ (match e.requestBody with
         | some b => [("requestBody", Json.str b)]
         | none => []))

/-- Structured-text form of an entry. -/
def entryToJsonString (e : LogEntry) : String := jsonStringify (entryToJson e)

/-- The default human-readable line of source line 60. -/
def defaultLine (e : LogEntry) : String :=
  e.time ++ " " ++ e.method ++ " " ++ e.url ++ " " ++ toString e.status ++ " " ++
  toString e.duration ++ "ms - " ++ e.ip

/-- The remote dispatch built at source lines 62-71. -/
def mkRemoteCall (cfg : Config) (message : String) (entry : LogEntry) : RemoteCall :=
  { url := cfg.remoteLogUrl
    token := cfg.authToken
    payload :=
      { stack := cfg.remoteStack
        level := cfg.defaultLevel
        pkg := cfg.remotePackage
        message := message
        context := entry
        logId := if cfg.logClientId = "" then none else some cfg.logClientId } }

/-- Evaluation of the optional skip predicate (source line 55): absent
means "do not skip"; a user-supplied predicate may throw. -/
def skipEval (ctx : Ctx) (entry : LogEntry) : Except String Bool :=
  match ctx.cfg.skip with
  | some f => f entry ctx.req
  | none => Except.ok false

/-- Evaluation of the message (source lines 57-60): custom formatter,
structured text, or the default line. -/
def messageEval (ctx : Ctx) (entry : LogEntry) : Except String String :=
  match ctx.cfg.format with
  | some f => f entry
  | none => Except.ok (if ctx.cfg.json then entryToJsonString entry else defaultLine entry)

/-- The body of the `try` block of `onFinish` after the entry has been
built and recorded (source lines 55-74).  An `error` result carries the
thrown message together with the state of side effects already performed
when the throw happened; it is handled by the `catch` of `onFinishRun`. -/
def pipelineAfterBuild (ctx : Ctx) (entry : LogEntry) (st : MidState) :
    Except (String × MidState) MidState :=
  match skipEval ctx entry with
  | .error e => .error (e, st)
  | .ok true => .ok st
  | .ok false =>
    match messageEval ctx entry with
    | .error e => .error (e, st)
    | .ok message =>
      if remoteConfigured ctx.cfg then
        .ok { st with remoteCalls := st.remoteCalls ++ [mkRemoteCall ctx.cfg message entry] }
      else
        let st1 := { st with localCalls := st.localCalls ++ [message] }
        match ctx.cfg.logger message with
        | .ok _ => .ok st1
        | .error e => .error (e, st1)

/-- One run of `onFinish` (source lines 35-81): build the entry inside the
`try`, run the rest of the pipeline, report a thrown error to the
diagnostic channel (`console.error`, line 76), and in the `finally` block
unregister both completion listeners (lines 78-79). -/
def onFinishRun (ctx : Ctx) (st : MidState) : MidState :=
  let entry := buildEntry ctx
  let st1 := { st with built := st.built ++ [entry] }
  let after :=
    match pipelineAfterBuild ctx entry st1 with
    | .ok s => s
    | .error (e, s) => { s with diagnostics := s.diagnostics ++ [e] }
  { after with finishReg := false, closeReg := false }

/-- The two completion channels of the response. -/
inductive Channel where
  | finish : Channel
  | close : Channel
deriving Repr, DecidableEq

/-- Firing one completion event: the handler runs exactly when it is still
registered on that channel. -/
def fire (ctx : Ctx) (st : MidState) (ch : Channel) : MidState :=
  match ch with
  | .finish => if st.finishReg then onFinishRun ctx st else st
  | .close => if st.closeReg then onFinishRun ctx st else st

/-- Any interleaving of completion events. -/
def runEvents (ctx : Ctx) (st : MidState) (evs : List Channel) : MidState :=
  evs.foldl (fire ctx) st

/-- Fresh per-request state: nothing registered, no effects. -/
def initialState : MidState :=
  { finishReg := false, closeReg := false, built := [], localCalls := [],
    remoteCalls := [], diagnostics := [] }

/-- Result of the synchronous part of the middleware body
(source lines 24-34, 83-85). -/
structure SetupOut where
  requestId : String
  responseIdHeader : Option String
  skipped : Bool
  st : MidState

/-- Source lines 24-34 and 83-85: resolve or generate the request id,
set the response header only when the id was generated, then either pass
through (exempt path: no listeners) or register `onFinish` on both the
`finish` and `close` channels. -/
def middlewareCall (cfg : Config) (req : Request) (genId : String) : SetupOut :=
  let inbound := lookupHeader req.headers cfg.requestIdHeader
  let generated : Bool :=
    match inbound with
    | some v => v = ""
    | none => true
  let rid :=
    match inbound with
    | some v => if v = "" then genId else v
    | none => genId
  let respHdr := if generated then some rid else none
  if shouldSkipPath (effectiveUrl req) cfg.skipPaths then
    { requestId := rid, responseIdHeader := respHdr, skipped := true, st := initialState }
  else
    { requestId := rid, responseIdHeader := respHdr, skipped := false,
      st := { initialState with finishReg := true, closeReg := true } }

/-- A whole request lifecycle: middleware invocation followed by an
arbitrary interleaving of completion events. -/
def processRequest (cfg : Config) (req : Request) (params : RunParams)
    (genId : String) (evs : List Channel) : SetupOut × MidState :=
  let setup := middlewareCall cfg req genId
  (setup, runEvents { cfg := cfg, req := req, params := params, requestId := setup.requestId }
    setup.st evs)

/-! ## Remote delivery primitives (`postToRemote`, `sendLog`) -/

/-- Source lines 145-177, `postToRemote`: the whole body sits inside
`try { ... } catch (_) {}`, the callback-style fallback attaches an
`error` listener that swallows transport errors, so the returned promise
always resolves.  The transport itself is the `network` parameter. -/
def postToRemote {α : Type} (url token : String) (payload : α)
    (network : String → String → α → Except String Unit) : Except String Unit :=
  match network url token payload with
  | .ok _ => .ok ()
  | .error _ => .ok ()

/-- JavaScript object update `o[k] = v` / spread collision semantics: an
existing key keeps its position and receives the new value, a new key is
appended. -/
def jsObjSet (kvs : List (String × Json)) (k : String) (v : Json) : List (String × Json) :=
  if kvs.any (fun p => p.1 == k) then
    kvs.map (fun p => if p.1 == k then (k, v) else p)
  else kvs ++ [(k, v)]

/-- JavaScript object spread `{ ...base, ...extra }` restricted to what the
source uses: fold `extra` into `base` with `jsObjSet`. -/
def jsObjSpread (base extra : List (String × Json)) : List (String × Json) :=
  extra.foldl (fun acc p => jsObjSet acc p.1 p.2) base

/-- The environment read by `sendLog` (source lines 91-92, 100):
`LOG_API_URL`, `LOG_API_TOKEN`, `LOG_CLIENT_ID`; `""` models an unset
variable. -/
structure SendLogEnv where
  logApiUrl : String
  logApiToken : String
  logClientId : String

/-- The payload of source lines 94-101:
`{ stack, level, package, message, ...extra, logId }` with lower-casing
and defaulting; `logId` prefers the environment client id. -/
def sendLogPayload (env : SendLogEnv) (stack level pkg message : String)
    (extra : List (String × Json)) : List (String × Json) :=
  let base : List (String × Json) :=
    [("stack", Json.str (lowerStr stack)),
     ("level", Json.str (lowerStr (if level = "" then "info" else level))),
     ("package", Json.str pkg),
     ("message", Json.str message)]
  let spread := jsObjSpread base extra
  match (if env.logClientId ≠ "" then some (Json.str env.logClientId) else extra.lookup "logId") with
  | some v => jsObjSet spread "logId" v
  | none => spread

/-- Source lines 90-103, `sendLog`: `false` when the environment settings
are absent, otherwise `try { await postToRemote(...); return true }
catch (_) { return false }`. -/
def sendLog (env : SendLogEnv) (stack level pkg message : String)
    (extra : List (String × Json))
    (network : String → String → List (String × Json) → Except String Unit) : Bool :=
  if env.logApiUrl = "" then false
  else if env.logApiToken = "" then false
  else
    match postToRemote env.logApiUrl env.logApiToken
        (sendLogPayload env stack level pkg message extra) network with
    | .ok _ => true
    | .error _ => false

/-! ## Base64 and the token signer (`generateJwt`, source lines 184-195) -/

/-- The standard base64 alphabet used by `Buffer.toString('base64')`. -/
def b64Alphabet : List Char :=
  "ABCDEFGHIJKLMNOPQRSTUVWXYZabcdefghijklmnopqrstuvwxyz0123456789+/".data

/-- Character of one 6-bit value. -/
def b64Char (n : Nat) : Char := b64Alphabet.getD n 'A'

/-- Standard padded base64 of a byte list, three bytes to four characters. -/
def base64Chunks : List Nat → List Char
  | a :: b :: c :: rest =>
    b64Char (a / 4) :: b64Char (a % 4 * 16 + b / 16) ::
    b64Char (b % 16 * 4 + c / 64) :: b64Char (c % 64) :: base64Chunks rest
  | [a, b] => [b64Char (a / 4), b64Char (a % 4 * 16 + b / 16), b64Char (b % 16 * 4), '=']
  | [a] => [b64Char (a / 4), b64Char (a % 4 * 16), '=', '=']
  | [] => []

/-- `.replace(/=+$/g, '')`: strip trailing padding. -/
def stripPad (cs : List Char) : List Char :=
  (cs.reverse.dropWhile (fun c => c == '=')).reverse

/-- `.replace(/\+/g, '-').replace(/\//g, '_')` on one character. -/
def urlChar (c : Char) : Char :=
  if c == '+' then '-' else if c == '/' then '_' else c

/-- URL-safe character replacement over a whole encoding. -/
def urlSafe (cs : List Char) : List Char := cs.map urlChar

/-- The `enc` helper of source line 191 applied to raw bytes: padded
base64, then strip `=`, then `+` to `-` and `/` to `_`. -/
def base64UrlEncode (bs : List Nat) : String :=
  String.mk (urlSafe (stripPad (base64Chunks bs)))

/-- The URL-safe base64 alphabet. -/
def b64UrlAlphabet : List Char :=
  "ABCDEFGHIJKLMNOPQRSTUVWXYZabcdefghijklmnopqrstuvwxyz0123456789-_".data

/-- Index of a character in a list. -/
def charIndex : List Char → Char → Option Nat
  | [], _ => none
  | a :: rest, c => if a = c then some 0 else (charIndex rest c).map Nat.succ

/-- 6-bit value of a URL-safe base64 character. -/
def b64UrlValue (c : Char) : Option Nat := charIndex b64UrlAlphabet c

/-- Standard unpadded base64url decoder (the "standard verifier" side of
the spec): groups of four characters yield three bytes, a canonical
two- or three-character tail yields one or two bytes. -/
def decodeB64Chars : List Char → Option (List Nat)
  | w :: x :: y :: z :: rest =>
    (match b64UrlValue w, b64UrlValue x, b64UrlValue y, b64UrlValue z, decodeB64Chars rest with
     | some a, some b, some c, some d, some tail =>
       some ((a * 4 + b / 16) :: (b % 16 * 16 + c / 4) :: (c % 4 * 64 + d) :: tail)
     | _, _, _, _, _ => none)
  | [w, x, y] =>
    (match b64UrlValue w, b64UrlValue x, b64UrlValue y with
     | some a, some b, some c =>
       if c % 4 = 0 then some [a * 4 + b / 16, b % 16 * 16 + c / 4] else none
     | _, _, _ => none)
  | [w, x] =>
    (match b64UrlValue w, b64UrlValue x with
     | some a, some b => if b % 16 = 0 then some [a * 4 + b / 16] else none
     | _, _ => none)
  | [] => some []
  | [_] => none

/-- Decoder entry point on strings. -/
def base64UrlDecode (s : String) : Option (List Nat) := decodeB64Chars s.data

/-- UTF-8 bytes of one code point. -/
def utf8EncodeChar (c : Nat) : List Nat :=
  if c < 128 then [c]
  else if c < 2048 then [192 + c / 64, 128 + c % 64]
  else if c < 65536 then [224 + c / 4096, 128 + c / 64 % 64, 128 + c % 64]
  else [240 + c / 262144, 128 + c / 4096 % 64, 128 + c / 64 % 64, 128 + c % 64]

/-- UTF-8 bytes of a string (`Buffer.from(str)`). -/
def utf8Bytes (s : String) : List Nat :=
  (s.data.map (fun c => utf8EncodeChar c.toNat)).flatten

/-- The fixed JWT header of source line 185. -/
def jwtHeader : List (String × Json) :=
  [("alg", Json.str "HS256"), ("typ", Json.str "JWT")]

/-- The payload object of source lines 186-190:
`{ iat: nowSec, ...claims }` (a claim named `iat` overrides the
timestamp), then `body.exp = nowSec + expiresInSeconds` when a positive
finite expiry is given. -/
def jwtBody (nowMs : Nat) (claims : List (String × Json))
    (expiresInSeconds : Option Int) : List (String × Json) :=
  let nowSec : Int := (nowMs / 1000 : Nat)
  let body := jsObjSpread [("iat", Json.num nowSec)] claims
  match expiresInSeconds with
  | some e => if 0 < e then jsObjSet body "exp" (Json.num (nowSec + e)) else body
  | none => body

/-- The expiry member appended by source lines 188-190, as a standalone
shape: present exactly when a positive finite expiry was supplied. -/
def jwtExpTail (nowMs : Nat) (eo : Option Int) : List (String × Json) :=
  match eo with
  | some e => if 0 < e then [("exp", Json.num ((nowMs / 1000 : Nat) + e))] else []
  | none => []

/-- `enc(obj)` of source line 191: URL-safe unpadded base64 of the UTF-8
bytes of the JSON serialization. -/
def encSeg (kvs : List (String × Json)) : String :=
  base64UrlEncode (utf8Bytes (jsonStringify (Json.obj kvs)))

/-- Source lines 184-195, `generateJwt`.  `hmacSha256 secret data` models
`crypto.createHmac('sha256', secret).update(data).digest()` (an external
primitive of the Node runtime); `nowMs` models `Date.now()`. -/
def generateJwt (hmacSha256 : String → String → List Nat) (nowMs : Nat)
    (claims : List (String × Json)) (secret : String)
    (expiresInSeconds : Option Int) : String :=
  let data := encSeg jwtHeader ++ "." ++ encSeg (jwtBody nowMs claims expiresInSeconds)
  let sig := base64UrlEncode (hmacSha256 secret data)
  data ++ "." ++ sig

/-- A string is a well-formed unpadded URL-safe base64 segment: every
character is in the URL-safe alphabet (in particular none is `.`, `=`,
`+` or `/`). -/
def urlSegOk (s : String) : Prop :=
  ∀ c ∈ s.data, (b64UrlValue c).isSome = true

/-! ## Concrete instances used to exercise the theorems -/

/-- A concrete configuration mirroring the constructor defaults of source
lines 2-22, with no remote settings. -/
def exampleConfig : Config :=
  { format := none, skip := none, json := false, includeHeaders := false,
    includeBody := false, redactKeys := defaultRedactKeys, maxBodyLength := 2048,
    requestIdHeader := "x-request-id", skipPaths := [], remoteLogUrl := "",
    authToken := "", remoteStack := "", remotePackage := "", defaultLevel := "info",
    logClientId := "", logger := fun _ => Except.ok () }

/-- A concrete request carrying an inbound `x-request-id` header. -/
def exampleRequest : Request :=
  { method := "GET", url := "/data", originalUrl := "/data", ip := "10.0.0.1",
    remoteAddress := none,
    headers := [("user-agent", "curl/8"), ("x-request-id", "abc-1")], body := none }

/-- Concrete completion-time data. -/
def exampleParams : RunParams :=
  { nowIso := "2026-01-01T00:00:00.000Z", durationMs := 5, status := 200,
    contentLengthHeader := some "17" }

/-- The example configuration with all four remote settings present. -/
def remoteConfig : Config :=
  { exampleConfig with remoteLogUrl := "http://log.example", authToken := "tok",
                       remoteStack := "backend", remotePackage := "url-shortener" }

/-- The remote configuration with the bearer token missing. -/
def partialRemoteConfig : Config :=
  { remoteConfig with authToken := "" }

/-- Handler context under the fully remote configuration. -/
def ctxRemote : Ctx :=
  { cfg := remoteConfig, req := exampleRequest, params := exampleParams, requestId := "abc-1" }

/-- Handler context with one remote setting missing. -/
def ctxPartial : Ctx :=
  { cfg := partialRemoteConfig, req := exampleRequest, params := exampleParams,
    requestId := "abc-1" }

/-- Handler context whose user-supplied formatter throws. -/
def ctxThrowingFormat : Ctx :=
  { cfg := { exampleConfig with format := some (fun _ => Except.error "boom") },
    req := exampleRequest, params := exampleParams, requestId := "abc-1" }

/-! # Theorems -/

/-- Pairs of a list zipped with its own map are related pointwise. -/
theorem zip_map_rel {α β : Type} (xs : List α) (f : α → β) :
    ∀ p ∈ xs.zip (xs.map f), p.2 = f p.1 := by
  induction xs with
  | nil => intro p h; simp at h
  | cons a t ih =>
    intro p h
    simp only [List.map_cons, List.zip_cons_cons, List.mem_cons] at h
    rcases h with h | h
    · simp [h]
    · exact ih p h

/-! ## C4 / C10: the truncator -/

/-- C4 (amended): for every value and threshold, the truncator serializes
the value (already-text values pass through); when the serialized text is
longer than `max` the result is its first `max` characters plus the
marker `...(<n> more bytes)` with `n` the number of elided characters;
when the serialization succeeds, is non-empty and fits, the result is the
serialized text unchanged; when serialization is impossible — or yields
the empty string, which line 118 (`if (!str) return undefined`) treats
like a failure — the result is absent.  The function is total (it cannot
raise by construction). -/
theorem C4_truncator_amended (v : Option Json) (maxLen : Nat) :
    (∀ s, v = some (Json.str s) → serializedOf v = some s)
    ∧ (serializedOf v = none → limitSize v maxLen = none)
    ∧ (∀ s, serializedOf v = some s → s ≠ "" → s.length ≤ maxLen → limitSize v maxLen = some s)
    ∧ (∀ s, serializedOf v = some s → maxLen < s.length →
        limitSize v maxLen =
          some (sliceTo s maxLen ++ "...(" ++ toString (s.length - maxLen) ++ " more bytes)")
        ∧ (sliceTo s maxLen).length = maxLen)
    ∧ (serializedOf v = some "" → limitSize v maxLen = none) := by
  refine ⟨?_, ?_, ?_, ?_, ?_⟩
  · intro s hv; subst hv; rfl
  · intro h; simp [limitSize, h]
  · intro s h hne hle
    simp only [limitSize, h]
    rw [if_neg hne, if_neg (by omega)]
  · intro s h hlt
    constructor
    · simp only [limitSize, h]
      have hne : s ≠ "" := by
        intro hs; subst hs; simp at hlt
      rw [if_neg hne, if_pos hlt]
    · show (String.mk (s.data.take maxLen)).length = maxLen
      have : (s.data.take maxLen).length = min maxLen s.data.length := List.length_take maxLen s.data
      have hlen : s.length = s.data.length := rfl
      simp only [String.length, this]
      omega
  · intro h; simp [limitSize, h]

/-- Witness for C4: a six-character body with threshold 4 is truncated to
four characters plus the elision marker. -/
theorem C4_witness :
    (4 < ("abcdef" : String).length) ∧
    limitSize (some (Json.str "abcdef")) 4 = some "abcd...(2 more bytes)" := by
  refine ⟨by decide, ?_⟩
  have h := (C4_truncator_amended (some (Json.str "abcdef")) 4).2.2.2.1 "abcdef" rfl (by decide)
  exact h.1.trans (by decide)

/-- C4 counterexample: the claim says a serialized text at or under the
threshold is returned exactly; the empty string is at or under any
threshold, yet the code returns an absent result (`!str` is true for
`''`), not the empty string. -/
theorem C4_counterexample :
    ("" : String).length ≤ 2048
    ∧ serializedOf (some (Json.str "")) = some ""
    ∧ limitSize (some (Json.str "")) 2048 = none
    ∧ limitSize (some (Json.str "")) 2048 ≠ some "" := by
  refine ⟨by decide, rfl, rfl, by decide⟩

/-- C10: the truncator maps the empty string — and an unserializable
value (`undefined`) — to an absent result rather than to the empty
string, so with body capture enabled a request body that serializes to
empty text yields an entry with no body field, although it is under the
threshold. -/
theorem C10_empty_serialization (maxLen : Nat) (ctx : Ctx)
    (hb : ctx.req.body = some (Json.str ""))
    (hib : ctx.cfg.includeBody = true) :
    limitSize (some (Json.str "")) maxLen = none
    ∧ limitSize none maxLen = none
    ∧ ("" : String).length ≤ maxLen
    ∧ (buildEntry ctx).requestBody = none := by
  refine ⟨rfl, rfl, by simp, ?_⟩
  simp [buildEntry, hib, hb, safeSerialize, limitSize, serializedOf]

/-- Witness for C10 on a concrete context. -/
theorem C10_witness :
    (buildEntry
      { cfg :=
          { format := none, skip := none, json := false, includeHeaders := false,
            includeBody := true, redactKeys := defaultRedactKeys, maxBodyLength := 2048,
            requestIdHeader := "x-request-id", skipPaths := [], remoteLogUrl := "",
            authToken := "", remoteStack := "", remotePackage := "", defaultLevel := "info",
            logClientId := "", logger := fun _ => Except.ok () }
        req :=
          { method := "POST", url := "/data", originalUrl := "/data", ip := "::1",
            remoteAddress := none, headers := [], body := some (Json.str "") }
        params := { nowIso := "2026-01-01T00:00:00.000Z", durationMs := 3, status := 200,
                    contentLengthHeader := none }
        requestId := "r1" }).requestBody = none := by
  exact (C10_empty_serialization 2048 _ rfl rfl).2.2.2

/-! ## C5: the redactor -/

/-- C5: the redactor returns a mapping of identical shape (same keys, same
order); every key matching a sensitive name case-insensitively gets the
fixed marker `[REDACTED]`; every other key keeps its input value; an
absent or empty input mapping yields the empty mapping (and the function
is total, hence never raises). -/
theorem C5_redactor (obj : List (String × String)) (keys : List String) :
    (redactObjectKeys (some obj) (some keys)).map Prod.fst = obj.map Prod.fst
    ∧ (∀ p ∈ obj.zip (redactObjectKeys (some obj) (some keys)),
        ((∃ k ∈ keys, lowerStr k = lowerStr p.1.1) → p.2.2 = redactMarker)
        ∧ ((∀ k ∈ keys, lowerStr k ≠ lowerStr p.1.1) → p.2.2 = p.1.2)
        ∧ p.2.1 = p.1.1)
    ∧ redactMarker = "[REDACTED]"
    ∧ redactObjectKeys none (some keys) = []
    ∧ redactObjectKeys (some []) (some keys) = []
    ∧ redactObjectKeys none none = [] := by
  have hfun : redactObjectKeys (some obj) (some keys) =
      obj.map (fun kv =>
        (kv.1, if (keys.map (fun k => lowerStr k)).contains (lowerStr kv.1)
               then redactMarker else kv.2)) := rfl
  refine ⟨?_, ?_, rfl, rfl, rfl, rfl⟩
  · rw [hfun, List.map_map]
    exact List.map_congr_left (fun kv _ => rfl)
  · intro p hp
    rw [hfun] at hp
    have hrel := zip_map_rel obj _ p hp
    have hcontains : ((keys.map (fun k => lowerStr k)).contains (lowerStr p.1.1) = true)
        ↔ ∃ k ∈ keys, lowerStr k = lowerStr p.1.1 := by
      simp
    refine ⟨?_, ?_, ?_⟩
    · intro hex
      rw [hrel, if_pos (hcontains.mpr hex)]
    · intro hall
      have : ¬ ((keys.map (fun k => lowerStr k)).contains (lowerStr p.1.1) = true) := by
        intro hc
        obtain ⟨k, hk, he⟩ := hcontains.mp hc
        exact hall k hk he
      rw [hrel, if_neg this]
    · rw [hrel]

/-- Witness for C5 on a concrete header mapping: the pair for the
`Authorization` key sits in the zip of input and output, and its output
value is the fixed marker because `authorization` matches it
case-insensitively. -/
theorem C5_witness :
    ((("Authorization", "Bearer x"), ("Authorization", "[REDACTED]")) ∈
        [("Authorization", "Bearer x"), ("accept", "json")].zip
          (redactObjectKeys (some [("Authorization", "Bearer x"), ("accept", "json")])
            (some ["authorization"])))
    ∧ ("[REDACTED]" : String) = redactMarker := by
  have hp : (("Authorization", "Bearer x"), ("Authorization", "[REDACTED]")) ∈
      [("Authorization", "Bearer x"), ("accept", "json")].zip
        (redactObjectKeys (some [("Authorization", "Bearer x"), ("accept", "json")])
          (some ["authorization"])) := by decide
  exact ⟨hp, ((C5_redactor [("Authorization", "Bearer x"), ("accept", "json")]
    ["authorization"]).2.1 _ hp).1 ⟨"authorization", by decide, by decide⟩⟩

/-! ## C2: exempt paths -/

/-- States with no registered listener are inert: no event has any effect. -/
theorem runEvents_inert (ctx : Ctx) (st : MidState)
    (h1 : st.finishReg = false) (h2 : st.closeReg = false) :
    ∀ evs, runEvents ctx st evs = st := by
  intro evs
  induction evs with
  | nil => rfl
  | cons e rest ih =>
    show runEvents ctx (fire ctx st e) rest = st
    cases e <;> simp only [fire, h1, h2, if_neg] <;> simpa using ih

/-- C2: a request whose path matches an exemption rule builds no entry and
produces no local or remote sink call; the empty rule list exempts
nothing; matching short-circuits at the first matching rule; and the
matcher returns true exactly when some rule matches by literal prefix or
by pattern test. -/
theorem C2_exempt_paths (cfg : Config) (req : Request) (params : RunParams)
    (genId : String) (evs : List Channel)
    (hsk : shouldSkipPath (effectiveUrl req) cfg.skipPaths = true) :
    (processRequest cfg req params genId evs).2.built = []
    ∧ (processRequest cfg req params genId evs).2.localCalls = []
    ∧ (processRequest cfg req params genId evs).2.remoteCalls = []
    ∧ (∀ url, shouldSkipPath url [] = false)
    ∧ (∀ url r rs, ruleMatches url r = true → shouldSkipPath url (r :: rs) = true)
    ∧ (∀ url rules, shouldSkipPath url rules = rules.any (ruleMatches url)) := by
  have hsetup : middlewareCall cfg req genId =
      { requestId := (middlewareCall cfg req genId).requestId,
        responseIdHeader := (middlewareCall cfg req genId).responseIdHeader,
        skipped := true, st := initialState } := by
    simp only [middlewareCall, hsk, if_pos]
  have hrun : (processRequest cfg req params genId evs).2 = initialState := by
    show runEvents _ (middlewareCall cfg req genId).st evs = initialState
    rw [hsetup]
    exact runEvents_inert _ _ rfl rfl evs
  refine ⟨by rw [hrun]; rfl, by rw [hrun]; rfl, by rw [hrun]; rfl, fun url => rfl, ?_, ?_⟩
  · intro url r rs h
    simp [shouldSkipPath, h]
  · intro url rules
    induction rules with
    | nil => rfl
    | cons r rest ih =>
      show (if ruleMatches url r then true else shouldSkipPath url rest) = _
      cases h : ruleMatches url r <;> simp [List.any_cons, h, ih]

/-- Witness for C2: a request to `/health/live` with rule list
`["/health"]` is exempt and produces no entry and no sink call. -/
theorem C2_witness :
    shouldSkipPath "/health/live" [SkipRule.lit "/health"] = true
    ∧ (processRequest
        { format := none, skip := none, json := false, includeHeaders := false,
          includeBody := false, redactKeys := defaultRedactKeys, maxBodyLength := 2048,
          requestIdHeader := "x-request-id", skipPaths := [SkipRule.lit "/health"],
          remoteLogUrl := "", authToken := "", remoteStack := "", remotePackage := "",
          defaultLevel := "info", logClientId := "", logger := fun _ => Except.ok () }
        { method := "GET", url := "/health/live", originalUrl := "/health/live", ip := "::1",
          remoteAddress := none, headers := [], body := none }
        { nowIso := "2026-01-01T00:00:00.000Z", durationMs := 1, status := 200,
          contentLengthHeader := none }
        "gen-1" [Channel.finish, Channel.close]).2.built = [] := by
  refine ⟨by decide, ?_⟩
  exact (C2_exempt_paths _ _ _ _ _ (by decide)).1

/-! ## Lemmas on the handler state machine -/

/-- The pipeline after entry construction never touches the entry list,
the listener flags or the diagnostics when it returns normally. -/
theorem pipeline_ok_preserves (ctx : Ctx) (entry : LogEntry) (st s : MidState)
    (h : pipelineAfterBuild ctx entry st = Except.ok s) :
    s.built = st.built ∧ s.finishReg = st.finishReg ∧ s.closeReg = st.closeReg ∧
    s.diagnostics = st.diagnostics := by
  unfold pipelineAfterBuild at h
  cases h1 : skipEval ctx entry with
  | error e => simp only [h1] at h; exact Except.noConfusion h
  | ok b =>
    simp only [h1] at h
    cases b with
    | true => cases h; exact ⟨rfl, rfl, rfl, rfl⟩
    | false =>
      cases h2 : messageEval ctx entry with
      | error e => simp only [h2] at h; exact Except.noConfusion h
      | ok m =>
        simp only [h2] at h
        cases h3 : remoteConfigured ctx.cfg with
        | true =>
          simp only [h3, if_true] at h
          cases h; exact ⟨rfl, rfl, rfl, rfl⟩
        | false =>
          simp only [h3, Bool.false_eq_true, if_false] at h
          cases h4 : ctx.cfg.logger m with
          | ok u => simp only [h4] at h; cases h; exact ⟨rfl, rfl, rfl, rfl⟩
          | error e => simp only [h4] at h; exact Except.noConfusion h

/-- The pipeline also preserves those fields when it throws: the error
value carries the state of effects already performed. -/
theorem pipeline_err_preserves (ctx : Ctx) (entry : LogEntry) (st : MidState)
    (err : String) (s : MidState)
    (h : pipelineAfterBuild ctx entry st = Except.error (err, s)) :
    s.built = st.built ∧ s.finishReg = st.finishReg ∧ s.closeReg = st.closeReg ∧
    s.diagnostics = st.diagnostics := by
  unfold pipelineAfterBuild at h
  cases h1 : skipEval ctx entry with
  | error e => simp only [h1] at h; cases h; exact ⟨rfl, rfl, rfl, rfl⟩
  | ok b =>
    simp only [h1] at h
    cases b with
    | true => exact Except.noConfusion h
    | false =>
      cases h2 : messageEval ctx entry with
      | error e => simp only [h2] at h; cases h; exact ⟨rfl, rfl, rfl, rfl⟩
      | ok m =>
        simp only [h2] at h
        cases h3 : remoteConfigured ctx.cfg with
        | true =>
          simp only [h3, if_true] at h
          exact Except.noConfusion h
        | false =>
          simp only [h3, Bool.false_eq_true, if_false] at h
          cases h4 : ctx.cfg.logger m with
          | ok u => simp only [h4] at h; exact Except.noConfusion h
          | error e => simp only [h4] at h; cases h; exact ⟨rfl, rfl, rfl, rfl⟩

/-- Each run of the handler appends exactly one entry, the one built from
its context. -/
theorem onFinishRun_built (ctx : Ctx) (st : MidState) :
    (onFinishRun ctx st).built = st.built ++ [buildEntry ctx] := by
  simp only [onFinishRun]
  cases hr : pipelineAfterBuild ctx (buildEntry ctx)
      { st with built := st.built ++ [buildEntry ctx] } with
  | ok s => exact (pipeline_ok_preserves _ _ _ _ hr).1
  | error p =>
    obtain ⟨err, s⟩ := p
    exact (pipeline_err_preserves _ _ _ _ _ hr).1

/-- The `finally` block always unregisters both listeners. -/
theorem onFinishRun_regs (ctx : Ctx) (st : MidState) :
    (onFinishRun ctx st).finishReg = false ∧ (onFinishRun ctx st).closeReg = false :=
  ⟨rfl, rfl⟩

/-- With both listeners registered, either completion channel triggers the
same handler run. -/
theorem fire_registered (ctx : Ctx) (st : MidState) (e : Channel)
    (h1 : st.finishReg = true) (h2 : st.closeReg = true) :
    fire ctx st e = onFinishRun ctx st := by
  cases e <;> simp [fire, h1, h2]

/-- Any entry present after a sequence of events was either already there
or is the entry the handler builds. -/
theorem runEvents_built_mem (ctx : Ctx) (evs : List Channel) :
    ∀ st, ∀ e ∈ (runEvents ctx st evs).built, e ∈ st.built ∨ e = buildEntry ctx := by
  induction evs with
  | nil => intro st e he; exact Or.inl he
  | cons ev rest ih =>
    intro st e he
    have hstep : ∀ x ∈ (fire ctx st ev).built, x ∈ st.built ∨ x = buildEntry ctx := by
      intro x hx
      cases ev with
      | finish =>
        by_cases hreg : st.finishReg = true
        · simp only [fire, hreg, if_true] at hx
          rw [onFinishRun_built] at hx
          rcases List.mem_append.mp hx with h | h
          · exact Or.inl h
          · exact Or.inr (List.mem_singleton.mp h)
        · simp only [fire, Bool.not_eq_true] at hreg
          simp only [fire, hreg] at hx
          exact Or.inl (by simpa using hx)
      | close =>
        by_cases hreg : st.closeReg = true
        · simp only [fire, hreg, if_true] at hx
          rw [onFinishRun_built] at hx
          rcases List.mem_append.mp hx with h | h
          · exact Or.inl h
          · exact Or.inr (List.mem_singleton.mp h)
        · simp only [fire, Bool.not_eq_true] at hreg
          simp only [fire, hreg] at hx
          exact Or.inl (by simpa using hx)
    have := ih (fire ctx st ev) e he
    rcases this with h | h
    · exact hstep e h
    · exact Or.inr h

/-- After a non-exempt middleware invocation, the first completion event
runs the handler once and later events are inert. -/
theorem processRequest_run (cfg : Config) (req : Request) (params : RunParams)
    (genId : String) (e : Channel) (rest : List Channel)
    (hsk : shouldSkipPath (effectiveUrl req) cfg.skipPaths = false) :
    (processRequest cfg req params genId (e :: rest)).2 =
      onFinishRun
        { cfg := cfg, req := req, params := params,
          requestId := (middlewareCall cfg req genId).requestId }
        { initialState with finishReg := true, closeReg := true } := by
  have hst : (middlewareCall cfg req genId).st =
      { initialState with finishReg := true, closeReg := true } := by
    simp only [middlewareCall, hsk, Bool.false_eq_true, if_false]
  show runEvents _ (middlewareCall cfg req genId).st (e :: rest) = _
  rw [hst]
  show runEvents _ (fire _ { initialState with finishReg := true, closeReg := true } e) rest = _
  rw [fire_registered _ _ _ rfl rfl]
  exact runEvents_inert _ _ (onFinishRun_regs _ _).1 (onFinishRun_regs _ _).2 rest

/-- Routing of one handler run when the user hooks are absent: the message
is the structured or default line, and it goes to exactly one sink. -/
theorem onFinishRun_route (ctx : Ctx) (st : MidState)
    (hskip : ctx.cfg.skip = none) (hfmt : ctx.cfg.format = none) :
    (remoteConfigured ctx.cfg = true →
      (onFinishRun ctx st).remoteCalls = st.remoteCalls ++
        [mkRemoteCall ctx.cfg
          (if ctx.cfg.json then entryToJsonString (buildEntry ctx) else defaultLine (buildEntry ctx))
          (buildEntry ctx)]
      ∧ (onFinishRun ctx st).localCalls = st.localCalls)
    ∧ (remoteConfigured ctx.cfg = false →
      (onFinishRun ctx st).localCalls = st.localCalls ++
        [if ctx.cfg.json then entryToJsonString (buildEntry ctx) else defaultLine (buildEntry ctx)]
      ∧ (onFinishRun ctx st).remoteCalls = st.remoteCalls) := by
  have hse : skipEval ctx (buildEntry ctx) = Except.ok false := by
    simp [skipEval, hskip]
  have hme : messageEval ctx (buildEntry ctx) =
      Except.ok (if ctx.cfg.json then entryToJsonString (buildEntry ctx)
                 else defaultLine (buildEntry ctx)) := by
    simp [messageEval, hfmt]
  constructor
  · intro hrc
    simp only [onFinishRun, pipelineAfterBuild, hse, hme, hrc, if_true]
    constructor <;> trivial
  · intro hrc
    simp only [onFinishRun, pipelineAfterBuild, hse, hme, hrc, Bool.false_eq_true, if_false]
    cases hl : ctx.cfg.logger
        (if ctx.cfg.json then entryToJsonString (buildEntry ctx) else defaultLine (buildEntry ctx)) with
    | ok u => simp only [hl]; constructor <;> trivial
    | error err => simp only [hl]; constructor <;> trivial

/-! ## C1: exactly-once emission -/

/-- C1: for a request accepted by the interceptor (non-exempt path) and
any non-empty interleaving of the `finish` and `close` completion events,
exactly one `LogEntry` is built — the first event triggers the handler,
which unregisters both listeners, so further events (including the other
channel also firing) produce nothing; and when the optional skip and
format hooks are absent, exactly one sink (local or remote) receives
exactly one call. -/
theorem C1_exactly_once (cfg : Config) (req : Request) (params : RunParams)
    (genId : String) (evs : List Channel)
    (hsk : shouldSkipPath (effectiveUrl req) cfg.skipPaths = false)
    (hne : evs ≠ []) :
    ((processRequest cfg req params genId evs).2.built).length = 1
    ∧ (processRequest cfg req params genId evs).2.finishReg = false
    ∧ (processRequest cfg req params genId evs).2.closeReg = false
    ∧ (cfg.skip = none → cfg.format = none →
        (processRequest cfg req params genId evs).2.localCalls.length +
          (processRequest cfg req params genId evs).2.remoteCalls.length = 1) := by
  cases evs with
  | nil => exact absurd rfl hne
  | cons e rest =>
    rw [processRequest_run cfg req params genId e rest hsk]
    set ctx : Ctx :=
      { cfg := cfg, req := req, params := params,
        requestId := (middlewareCall cfg req genId).requestId } with hctx
    set st0 : MidState := { initialState with finishReg := true, closeReg := true } with hst0
    refine ⟨?_, (onFinishRun_regs ctx st0).1, (onFinishRun_regs ctx st0).2, ?_⟩
    · rw [onFinishRun_built]; rfl
    · intro hskip hfmt
      have hroute := onFinishRun_route ctx st0 hskip hfmt
      cases hrc : remoteConfigured cfg with
      | true =>
        obtain ⟨h1, h2⟩ := hroute.1 hrc
        rw [h1, h2]; rfl
      | false =>
        obtain ⟨h1, h2⟩ := hroute.2 hrc
        rw [h1, h2]; rfl

/-- Witness for C1: both channels fire; still one entry, one sink call. -/
theorem C1_witness :
    (shouldSkipPath (effectiveUrl exampleRequest) exampleConfig.skipPaths = false
      ∧ ([Channel.finish, Channel.close] : List Channel) ≠ [])
    ∧ ((processRequest exampleConfig exampleRequest exampleParams "gen-1"
        [Channel.finish, Channel.close]).2.built).length = 1
    ∧ (processRequest exampleConfig exampleRequest exampleParams "gen-1"
        [Channel.finish, Channel.close]).2.localCalls.length +
      (processRequest exampleConfig exampleRequest exampleParams "gen-1"
        [Channel.finish, Channel.close]).2.remoteCalls.length = 1 := by
  have h := C1_exactly_once exampleConfig exampleRequest exampleParams "gen-1"
    [Channel.finish, Channel.close] (by decide) (by decide)
  exact ⟨⟨by decide, by decide⟩, h.1, h.2.2.2 rfl rfl⟩

/-! ## C9: the handler is total and contains every exception -/

/-- C9: the completion handler is total by construction (it is a Lean
function); whatever the user-supplied skip predicate, formatter or sink
does — including throwing, modelled by `Except.error` — both completion
listeners are unregistered, and a thrown error is appended to the
diagnostic side channel instead of propagating: the handler's result is
an ordinary state, never an error. -/
theorem C9_handler_contains_errors (ctx : Ctx) (st : MidState) :
    (onFinishRun ctx st).finishReg = false
    ∧ (onFinishRun ctx st).closeReg = false
    ∧ (∀ s, pipelineAfterBuild ctx (buildEntry ctx)
          { st with built := st.built ++ [buildEntry ctx] } = Except.ok s →
        (onFinishRun ctx st).diagnostics = st.diagnostics)
    ∧ (∀ err s, pipelineAfterBuild ctx (buildEntry ctx)
          { st with built := st.built ++ [buildEntry ctx] } = Except.error (err, s) →
        (onFinishRun ctx st).diagnostics = st.diagnostics ++ [err]) := by
  refine ⟨(onFinishRun_regs ctx st).1, (onFinishRun_regs ctx st).2, ?_, ?_⟩
  · intro s hr
    simp only [onFinishRun, hr]
    exact (pipeline_ok_preserves _ _ _ _ hr).2.2.2
  · intro err s hr
    simp only [onFinishRun, hr]
    show s.diagnostics ++ [err] = st.diagnostics ++ [err]
    rw [(pipeline_err_preserves _ _ _ _ _ hr).2.2.2]

/-- Witness for C9: a throwing formatter is caught, reported to the
diagnostic channel, and both listeners are still unregistered. -/
theorem C9_witness :
    (onFinishRun ctxThrowingFormat initialState).finishReg = false
    ∧ (onFinishRun ctxThrowingFormat initialState).diagnostics = ["boom"] := by
  have h := C9_handler_contains_errors ctxThrowingFormat initialState
  exact ⟨h.1, h.2.2.2 "boom" _ rfl⟩

/-! ## C3: the delivery router -/

/-- The fire-and-forget transport wrapper resolves whatever the network
does: `postToRemote` wraps its whole body in `try/catch` and swallows
transport errors, so a dispatch failure can never surface. -/
theorem postToRemote_ok {α : Type} (u t : String) (p : α)
    (net : String → String → α → Except String Unit) :
    postToRemote u t p net = Except.ok () := by
  unfold postToRemote
  cases net u t p <;> rfl

/-- C3: remote mode holds iff endpoint, token, stack and package are all
non-empty; in remote mode the handler dispatches exactly one payload
carrying the formatted message, and the local sink is untouched; if any
setting is missing, the same formatted message goes synchronously to the
local sink and nothing is dispatched remotely; and a failing remote
transport still yields a resolved dispatch (failures are swallowed). -/
theorem C3_delivery_router (ctx : Ctx) (st : MidState)
    (hskip : ctx.cfg.skip = none) (hfmt : ctx.cfg.format = none) :
    (remoteConfigured ctx.cfg = true ↔
      (ctx.cfg.remoteLogUrl ≠ "" ∧ ctx.cfg.authToken ≠ "" ∧
       ctx.cfg.remoteStack ≠ "" ∧ ctx.cfg.remotePackage ≠ ""))
    ∧ (remoteConfigured ctx.cfg = true →
      (onFinishRun ctx st).remoteCalls = st.remoteCalls ++
        [mkRemoteCall ctx.cfg
          (if ctx.cfg.json then entryToJsonString (buildEntry ctx) else defaultLine (buildEntry ctx))
          (buildEntry ctx)]
      ∧ (onFinishRun ctx st).localCalls = st.localCalls)
    ∧ (remoteConfigured ctx.cfg = false →
      (onFinishRun ctx st).localCalls = st.localCalls ++
        [if ctx.cfg.json then entryToJsonString (buildEntry ctx) else defaultLine (buildEntry ctx)]
      ∧ (onFinishRun ctx st).remoteCalls = st.remoteCalls)
    ∧ (∀ (net : String → String → RemotePayload → Except String Unit) u t p,
        postToRemote u t p net = Except.ok ()) := by
  refine ⟨?_, (onFinishRun_route ctx st hskip hfmt).1,
    (onFinishRun_route ctx st hskip hfmt).2, fun net u t p => postToRemote_ok u t p net⟩
  simp [remoteConfigured, Bool.and_eq_true, bne_iff_ne, and_assoc]

/-- Witness for C3: with all four remote settings present, the handler
produces exactly the remote dispatch and leaves the local sink untouched;
dropping the token routes the same message locally. -/
theorem C3_witness :
    (onFinishRun ctxRemote initialState).remoteCalls =
      [mkRemoteCall remoteConfig (defaultLine (buildEntry ctxRemote)) (buildEntry ctxRemote)]
    ∧ (onFinishRun ctxPartial initialState).localCalls =
      [defaultLine (buildEntry ctxPartial)] := by
  constructor
  · exact ((C3_delivery_router ctxRemote initialState rfl rfl).2.1 (by decide)).1
  · exact ((C3_delivery_router ctxPartial initialState rfl rfl).2.2.1 (by decide)).1

/-! ## C8: request-id propagation -/

/-- The entry's identifier is the context's resolved identifier. -/
theorem buildEntry_requestId (ctx : Ctx) :
    (buildEntry ctx).requestId = ctx.requestId := by
  simp only [buildEntry]
  split <;> split <;> rfl

/-- The per-request state starts with no recorded entries. -/
theorem middlewareCall_built (cfg : Config) (req : Request) (genId : String) :
    (middlewareCall cfg req genId).st.built = [] := by
  simp only [middlewareCall]
  split <;> rfl

/-- C8 (amended): an inbound non-empty request-id header becomes the
entry's identifier, but it is not echoed onto the response — the response
header is set only when no usable inbound identifier exists, in which
case the generated identifier is exposed on the response and used in the
entry. -/
theorem C8_request_id_amended (cfg : Config) (req : Request) (genId : String) :
    (∀ v, lookupHeader req.headers cfg.requestIdHeader = some v → v ≠ "" →
      (middlewareCall cfg req genId).requestId = v
      ∧ (middlewareCall cfg req genId).responseIdHeader = none)
    ∧ (lookupHeader req.headers cfg.requestIdHeader = none →
      (middlewareCall cfg req genId).requestId = genId
      ∧ (middlewareCall cfg req genId).responseIdHeader = some genId)
    ∧ (∀ params evs entry, entry ∈ (processRequest cfg req params genId evs).2.built →
      entry.requestId = (middlewareCall cfg req genId).requestId) := by
  refine ⟨?_, ?_, ?_⟩
  · intro v hv hne
    simp only [middlewareCall, hv, hne, decide_eq_true_eq]
    constructor <;> split <;> simp [hne]
  · intro hlook
    simp only [middlewareCall, hlook]
    constructor <;> split <;> rfl
  · intro params evs entry hentry
    have hmem := runEvents_built_mem
      { cfg := cfg, req := req, params := params,
        requestId := (middlewareCall cfg req genId).requestId }
      evs (middlewareCall cfg req genId).st entry hentry
    rcases hmem with h | h
    · rw [middlewareCall_built] at h
      exact absurd h (List.not_mem_nil entry)
    · rw [h, buildEntry_requestId]

/-- C8 counterexample: for the concrete request with inbound header
`x-request-id: abc-1`, the code does not set any response identifier
header (`res.setHeader` runs only in the generated branch), although the
claim says the response carries the same identifier; the entry identifier
does equal `abc-1`. -/
theorem C8_counterexample :
    (middlewareCall exampleConfig exampleRequest "gen-1").responseIdHeader = none
    ∧ (middlewareCall exampleConfig exampleRequest "gen-1").requestId = "abc-1" :=
  ⟨rfl, rfl⟩

/-- Witness for C8: the inbound identifier case and the generated case,
on concrete requests. -/
theorem C8_witness :
    (lookupHeader exampleRequest.headers exampleConfig.requestIdHeader = some "abc-1"
      ∧ "abc-1" ≠ "")
    ∧ (middlewareCall exampleConfig exampleRequest "gen-1").requestId = "abc-1"
    ∧ (middlewareCall exampleConfig
        { exampleRequest with headers := [("user-agent", "curl/8")] } "gen-1").responseIdHeader
      = some "gen-1" := by
  refine ⟨⟨by decide, by decide⟩, ?_, ?_⟩
  · exact ((C8_request_id_amended exampleConfig exampleRequest "gen-1").1
      "abc-1" (by decide) (by decide)).1
  · exact ((C8_request_id_amended exampleConfig
      { exampleRequest with headers := [("user-agent", "curl/8")] } "gen-1").2.1 (by decide)).2

/-! ## C7: the standalone delivery primitive -/

/-- C7 (amended): `sendLog` is total (it cannot raise: it returns a plain
boolean for every input, including a failing transport); it returns
`false` exactly when a required environment setting is absent; when both
settings are present it returns `true` regardless of the transport
outcome, because `postToRemote` swallows every delivery failure — a
failed delivery attempt is not observable and does not yield `false`. -/
theorem C7_sendLog_amended (env : SendLogEnv) (stack level pkg message : String)
    (extra : List (String × Json))
    (network : String → String → List (String × Json) → Except String Unit) :
    (sendLog env stack level pkg message extra network = true ↔
      (env.logApiUrl ≠ "" ∧ env.logApiToken ≠ ""))
    ∧ ((env.logApiUrl = "" ∨ env.logApiToken = "") →
      sendLog env stack level pkg message extra network = false)
    ∧ (∀ net2, sendLog env stack level pkg message extra network =
        sendLog env stack level pkg message extra net2)
    ∧ (∀ u t p, postToRemote u t p network = Except.ok ()) := by
  have hok : ∀ (net : String → String → List (String × Json) → Except String Unit) u t p,
      postToRemote u t p net = Except.ok () := fun net u t p => postToRemote_ok u t p net
  have hval : ∀ (net : String → String → List (String × Json) → Except String Unit),
      sendLog env stack level pkg message extra net =
        (!(env.logApiUrl == "") && !(env.logApiToken == "")) := by
    intro net
    unfold sendLog
    by_cases h1 : env.logApiUrl = ""
    · simp [h1]
    · by_cases h2 : env.logApiToken = ""
      · simp [h1, h2]
      · simp [h1, h2, hok net]
  refine ⟨?_, ?_, ?_, hok network⟩
  · rw [hval network]
    constructor
    · intro h
      simp only [Bool.and_eq_true, Bool.not_eq_true', beq_eq_false_iff_ne] at h
      exact h
    · intro h
      simp [h.1, h.2]
  · intro h
    rw [hval network]
    rcases h with h | h <;> simp [h]
  · intro net2
    rw [hval network, hval net2]

/-- C7 counterexample: with both settings present and a transport that
fails, the delivery attempt fails but `sendLog` still returns `true`
(the claim requires `false` on a failed attempt): the `catch` branch of
`sendLog` is unreachable because `postToRemote` never rejects. -/
theorem C7_counterexample :
    sendLog { logApiUrl := "http://log.example", logApiToken := "tok", logClientId := "" }
      "backend" "info" "url-shortener" "hello" []
      (fun _ _ _ => Except.error "ECONNREFUSED") = true := rfl

/-- Witness for C7: absent settings yield `false`. -/
theorem C7_witness :
    sendLog { logApiUrl := "", logApiToken := "tok", logClientId := "" }
      "backend" "info" "url-shortener" "hello" []
      (fun _ _ _ => Except.ok ()) = false := by
  exact (C7_sendLog_amended { logApiUrl := "", logApiToken := "tok", logClientId := "" }
    "backend" "info" "url-shortener" "hello" [] (fun _ _ _ => Except.ok ())).2.1 (Or.inl rfl)

/-! ## C6: base64 and the token signer -/

/-- Decoding inverts encoding on each 6-bit value. -/
theorem b64_char_value_fin : ∀ v : Fin 64, b64UrlValue (urlChar (b64Char v.val)) = some v.val := by
  decide

/-- Decoding inverts encoding on each 6-bit value (`Nat` form). -/
theorem b64vc (v : Nat) (hv : v < 64) : b64UrlValue (urlChar (b64Char v)) = some v :=
  b64_char_value_fin ⟨v, hv⟩

/-- Alphabet characters are never the padding character. -/
theorem b64_pad_fin : ∀ v : Fin 64, (b64Char v.val == '=') = false := by
  decide

/-- Alphabet characters are never the padding character (`Nat` form). -/
theorem b64BeqPad (v : Nat) (hv : v < 64) : (b64Char v == '=') = false :=
  b64_pad_fin ⟨v, hv⟩

/-- `dropWhile` does nothing on a list whose elements all fail the test. -/
theorem dropWhile_of_all_false (g : List Char) (hg : ∀ x ∈ g, (x == '=') = false) :
    g.dropWhile (fun c => c == '=') = g := by
  cases g with
  | nil => rfl
  | cons a t => simp [List.dropWhile_cons, hg a (List.mem_cons_self a t)]

/-- Stripping trailing padding distributes over a pad-free prefix. -/
theorem stripPad_append (g t : List Char) (hg : ∀ x ∈ g, (x == '=') = false) :
    stripPad (g ++ t) = g ++ stripPad t := by
  unfold stripPad
  rw [List.reverse_append, List.dropWhile_append]
  by_cases he : (t.reverse.dropWhile (fun c => c == '=')).isEmpty = true
  · rw [if_pos he]
    have hgrev : ∀ x ∈ g.reverse, (x == '=') = false := fun x hx =>
      hg x (List.mem_reverse.mp hx)
    rw [dropWhile_of_all_false g.reverse hgrev, List.reverse_reverse]
    have hnil : t.reverse.dropWhile (fun c => c == '=') = [] := by
      simpa using he
    rw [hnil]
    simp
  · rw [if_neg he]
    simp [List.reverse_append]

/-- `urlSafe` distributes over append. -/
theorem urlSafe_append (g t : List Char) : urlSafe (g ++ t) = urlSafe g ++ urlSafe t :=
  List.map_append urlChar g t

/-- Unpadded URL-safe base64 decoding inverts encoding on byte lists. -/
theorem b64_decode_encode (bs : List Nat) (h : ∀ b ∈ bs, b < 256) :
    decodeB64Chars (urlSafe (stripPad (base64Chunks bs))) = some bs := by
  induction bs using base64Chunks.induct with
  | case1 a b c rest ih =>
    have ha : a < 256 := h a (by simp)
    have hb : b < 256 := h b (by simp)
    have hc : c < 256 := h c (by simp)
    have ihr := ih (fun x hx => h x (by simp [hx]))
    have hsplit : base64Chunks (a :: b :: c :: rest) =
        [b64Char (a / 4), b64Char (a % 4 * 16 + b / 16),
         b64Char (b % 16 * 4 + c / 64), b64Char (c % 64)] ++ base64Chunks rest := rfl
    rw [hsplit, stripPad_append _ _ ?pf, urlSafe_append]
    case pf =>
      intro x hx
      simp only [List.mem_cons, List.not_mem_nil, or_false] at hx
      rcases hx with rfl | rfl | rfl | rfl
      · exact b64BeqPad _ (by omega)
      · exact b64BeqPad _ (by omega)
      · exact b64BeqPad _ (by omega)
      · exact b64BeqPad _ (by omega)
    show decodeB64Chars
        (urlChar (b64Char (a / 4)) :: urlChar (b64Char (a % 4 * 16 + b / 16)) ::
         urlChar (b64Char (b % 16 * 4 + c / 64)) :: urlChar (b64Char (c % 64)) ::
         urlSafe (stripPad (base64Chunks rest))) = some (a :: b :: c :: rest)
    simp only [decodeB64Chars, b64vc (a / 4) (by omega), b64vc (a % 4 * 16 + b / 16) (by omega),
      b64vc (b % 16 * 4 + c / 64) (by omega), b64vc (c % 64) (by omega), ihr]
    have e1 : a / 4 * 4 + (a % 4 * 16 + b / 16) / 16 = a := by omega
    have e2 : (a % 4 * 16 + b / 16) % 16 * 16 + (b % 16 * 4 + c / 64) / 4 = b := by omega
    have e3 : (b % 16 * 4 + c / 64) % 4 * 64 + c % 64 = c := by omega
    rw [e1, e2, e3]
  | case2 a b =>
    have ha : a < 256 := h a (by simp)
    have hb : b < 256 := h b (by simp)
    have hsplit : base64Chunks [a, b] =
        [b64Char (a / 4), b64Char (a % 4 * 16 + b / 16), b64Char (b % 16 * 4)] ++ ['='] := rfl
    rw [hsplit, stripPad_append _ _ ?pf2]
    case pf2 =>
      intro x hx
      simp only [List.mem_cons, List.not_mem_nil, or_false] at hx
      rcases hx with rfl | rfl | rfl
      · exact b64BeqPad _ (by omega)
      · exact b64BeqPad _ (by omega)
      · exact b64BeqPad _ (by omega)
    show decodeB64Chars
        (urlChar (b64Char (a / 4)) :: urlChar (b64Char (a % 4 * 16 + b / 16)) ::
         urlChar (b64Char (b % 16 * 4)) :: []) = some [a, b]
    simp only [decodeB64Chars, b64vc (a / 4) (by omega), b64vc (a % 4 * 16 + b / 16) (by omega),
      b64vc (b % 16 * 4) (by omega)]
    rw [if_pos (by omega)]
    have e1 : a / 4 * 4 + (a % 4 * 16 + b / 16) / 16 = a := by omega
    have e2 : (a % 4 * 16 + b / 16) % 16 * 16 + b % 16 * 4 / 4 = b := by omega
    rw [e1, e2]
  | case3 a =>
    have ha : a < 256 := h a (by simp)
    have hsplit : base64Chunks [a] =
        [b64Char (a / 4), b64Char (a % 4 * 16)] ++ ['=', '='] := rfl
    rw [hsplit, stripPad_append _ _ ?pf3]
    case pf3 =>
      intro x hx
      simp only [List.mem_cons, List.not_mem_nil, or_false] at hx
      rcases hx with rfl | rfl
      · exact b64BeqPad _ (by omega)
      · exact b64BeqPad _ (by omega)
    show decodeB64Chars
        (urlChar (b64Char (a / 4)) :: urlChar (b64Char (a % 4 * 16)) :: []) = some [a]
    simp only [decodeB64Chars, b64vc (a / 4) (by omega), b64vc (a % 4 * 16) (by omega)]
    rw [if_pos (by omega)]
    have e1 : a / 4 * 4 + a % 4 * 16 / 16 = a := by omega
    rw [e1]
  | case4 => rfl

/-- The decoder inverts the encoder at the level of the embedded
functions. -/
theorem base64Url_roundtrip (bs : List Nat) (h : ∀ b ∈ bs, b < 256) :
    base64UrlDecode (base64UrlEncode bs) = some bs :=
  b64_decode_encode bs h

/-- Every character emitted by the encoder is in the URL-safe alphabet. -/
theorem b64UrlEncode_segOk (bs : List Nat) (h : ∀ b ∈ bs, b < 256) :
    urlSegOk (base64UrlEncode bs) := by
  intro ch hch
  have hch2 : ch ∈ urlSafe (stripPad (base64Chunks bs)) := hch
  clear hch
  induction bs using base64Chunks.induct with
  | case1 a b c rest ih =>
    have ha : a < 256 := h a (by simp)
    have hb : b < 256 := h b (by simp)
    have hc : c < 256 := h c (by simp)
    have hsplit : base64Chunks (a :: b :: c :: rest) =
        [b64Char (a / 4), b64Char (a % 4 * 16 + b / 16),
         b64Char (b % 16 * 4 + c / 64), b64Char (c % 64)] ++ base64Chunks rest := rfl
    rw [hsplit, stripPad_append _ _ (by
      intro x hx
      simp only [List.mem_cons, List.not_mem_nil, or_false] at hx
      rcases hx with rfl | rfl | rfl | rfl <;> exact b64BeqPad _ (by omega)),
      urlSafe_append] at hch2
    rcases List.mem_append.mp hch2 with hin | hin
    · simp only [urlSafe, List.map_cons, List.map_nil, List.mem_cons,
        List.not_mem_nil, or_false] at hin
      rcases hin with rfl | rfl | rfl | rfl <;>
        first
          | (rw [b64vc (a / 4) (by omega)]; rfl)
          | (rw [b64vc (a % 4 * 16 + b / 16) (by omega)]; rfl)
          | (rw [b64vc (b % 16 * 4 + c / 64) (by omega)]; rfl)
          | (rw [b64vc (c % 64) (by omega)]; rfl)
    · exact ih (fun x hx => h x (by simp [hx])) hin
  | case2 a b =>
    have ha : a < 256 := h a (by simp)
    have hb : b < 256 := h b (by simp)
    have hsplit : base64Chunks [a, b] =
        [b64Char (a / 4), b64Char (a % 4 * 16 + b / 16), b64Char (b % 16 * 4)] ++ ['='] := rfl
    rw [hsplit, stripPad_append _ _ (by
      intro x hx
      simp only [List.mem_cons, List.not_mem_nil, or_false] at hx
      rcases hx with rfl | rfl | rfl <;> exact b64BeqPad _ (by omega))] at hch2
    have hstrip : stripPad ['='] = [] := rfl
    rw [hstrip, List.append_nil] at hch2
    simp only [urlSafe, List.map_cons, List.map_nil, List.mem_cons,
      List.not_mem_nil, or_false] at hch2
    rcases hch2 with rfl | rfl | rfl <;>
      first
        | (rw [b64vc (a / 4) (by omega)]; rfl)
        | (rw [b64vc (a % 4 * 16 + b / 16) (by omega)]; rfl)
        | (rw [b64vc (b % 16 * 4) (by omega)]; rfl)
  | case3 a =>
    have ha : a < 256 := h a (by simp)
    have hsplit : base64Chunks [a] =
        [b64Char (a / 4), b64Char (a % 4 * 16)] ++ ['=', '='] := rfl
    rw [hsplit, stripPad_append _ _ (by
      intro x hx
      simp only [List.mem_cons, List.not_mem_nil, or_false] at hx
      rcases hx with rfl | rfl <;> exact b64BeqPad _ (by omega))] at hch2
    have hstrip : stripPad ['=', '='] = [] := rfl
    rw [hstrip, List.append_nil] at hch2
    simp only [urlSafe, List.map_cons, List.map_nil, List.mem_cons,
      List.not_mem_nil, or_false] at hch2
    rcases hch2 with rfl | rfl <;>
      first
        | (rw [b64vc (a / 4) (by omega)]; rfl)
        | (rw [b64vc (a % 4 * 16) (by omega)]; rfl)
  | case4 => simp [base64Chunks, stripPad, urlSafe] at hch2

/-- A well-formed segment contains no `.`, `=`, `+` or `/`. -/
theorem urlSegOk_excludes (s : String) (hs : urlSegOk s) :
    ∀ c ∈ s.data, c ≠ '.' ∧ c ≠ '=' ∧ c ≠ '+' ∧ c ≠ '/' := by
  intro c hc
  have h := hs c hc
  refine ⟨?_, ?_, ?_, ?_⟩ <;> (intro he; subst he; revert h; decide)

/-- Every Lean character is a Unicode scalar value. -/
theorem char_toNat_lt (c : Char) : c.toNat < 1114112 := by
  have h := c.valid
  simp only [UInt32.isValidChar, Nat.isValidChar] at h
  have h2 : c.toNat = c.val.toNat := rfl
  omega

/-- UTF-8 encoding of a scalar value produces bytes. -/
theorem utf8EncodeChar_lt (n : Nat) (hn : n < 1114112) :
    ∀ b ∈ utf8EncodeChar n, b < 256 := by
  intro b hb
  unfold utf8EncodeChar at hb
  split at hb
  · simp only [List.mem_cons, List.not_mem_nil, or_false] at hb
    omega
  · split at hb
    · simp only [List.mem_cons, List.not_mem_nil, or_false] at hb
      rcases hb with rfl | rfl <;> omega
    · split at hb
      · simp only [List.mem_cons, List.not_mem_nil, or_false] at hb
        rcases hb with rfl | rfl | rfl <;> omega
      · simp only [List.mem_cons, List.not_mem_nil, or_false] at hb
        rcases hb with rfl | rfl | rfl | rfl <;> omega

/-- The UTF-8 bytes of a string are bytes. -/
theorem utf8Bytes_lt (s : String) : ∀ b ∈ utf8Bytes s, b < 256 := by
  intro b hb
  unfold utf8Bytes at hb
  simp only [List.mem_flatten, List.mem_map] at hb
  obtain ⟨l, ⟨c, hc, rfl⟩, hbl⟩ := hb
  exact utf8EncodeChar_lt c.toNat (char_toNat_lt c) b hbl

/-- Setting an absent key appends it. -/
theorem jsObjSet_append (kvs : List (String × Json)) (k : String) (v : Json)
    (hk : k ∉ kvs.map Prod.fst) : jsObjSet kvs k v = kvs ++ [(k, v)] := by
  unfold jsObjSet
  have hfalse : ¬ ((kvs.any fun p => p.1 == k) = true) := by
    intro hc
    obtain ⟨p, hp, hpk⟩ := List.any_eq_true.mp hc
    exact hk (List.mem_map.mpr ⟨p, hp, by simpa using hpk⟩)
  rw [if_neg hfalse]

/-- Spreading fresh, duplicate-free keys into an object appends them in
order. -/
theorem jsObjSpread_append (extra : List (String × Json)) :
    ∀ base : List (String × Json),
    (∀ k ∈ extra.map Prod.fst, k ∉ base.map Prod.fst) →
    (extra.map Prod.fst).Nodup →
    jsObjSpread base extra = base ++ extra := by
  induction extra with
  | nil => intro base hdisj hnd; simp [jsObjSpread]
  | cons p rest ih =>
    intro base hdisj hnd
    obtain ⟨k, v⟩ := p
    show jsObjSpread (jsObjSet base k v) rest = base ++ (k, v) :: rest
    rw [jsObjSet_append base k v (hdisj k (by simp))]
    have hcons : (k :: rest.map Prod.fst).Nodup := hnd
    have hk_rest : k ∉ rest.map Prod.fst := (List.nodup_cons.mp hcons).1
    have hnd' : (rest.map Prod.fst).Nodup := (List.nodup_cons.mp hcons).2
    have hdisj' : ∀ k2 ∈ rest.map Prod.fst, k2 ∉ (base ++ [(k, v)]).map Prod.fst := by
      intro k2 hk2
      rw [List.map_append, List.mem_append]
      rintro (hcase | hcase)
      · exact hdisj k2 (by simp [hk2]) hcase
      · simp only [List.map_cons, List.map_nil, List.mem_singleton] at hcase
        subst hcase
        exact hk_rest hk2
    rw [ih (base ++ [(k, v)]) hdisj' hnd']
    simp

/-- Shape of the JWT payload object when the claims avoid the reserved
`iat` and `exp` keys: the issued-at timestamp comes first, then the
claims in order, then the expiry when one was given. -/
theorem jwtBody_eq (nowMs : Nat) (claims : List (String × Json)) (eo : Option Int)
    (hnd : (claims.map Prod.fst).Nodup)
    (hiat : "iat" ∉ claims.map Prod.fst)
    (hexp : "exp" ∉ claims.map Prod.fst) :
    jwtBody nowMs claims eo =
      ("iat", Json.num (nowMs / 1000 : Nat)) :: claims ++ jwtExpTail nowMs eo := by
  unfold jwtBody jwtExpTail
  have hb0 : jsObjSpread [("iat", Json.num (nowMs / 1000 : Nat))] claims =
      ("iat", Json.num (nowMs / 1000 : Nat)) :: claims := by
    rw [jsObjSpread_append claims [("iat", Json.num (nowMs / 1000 : Nat))] ?disj hnd]
    · rfl
    case disj =>
      intro k hk
      simp only [List.map_cons, List.map_nil, List.mem_singleton]
      intro he
      subst he
      exact hiat hk
  cases eo with
  | none =>
    show jsObjSpread [("iat", Json.num (nowMs / 1000 : Nat))] claims =
      ("iat", Json.num (nowMs / 1000 : Nat)) :: claims ++ []
    rw [List.append_nil]
    exact hb0
  | some e =>
    show (if 0 < e then
        jsObjSet (jsObjSpread [("iat", Json.num (nowMs / 1000 : Nat))] claims) "exp"
          (Json.num ((nowMs / 1000 : Nat) + e))
      else jsObjSpread [("iat", Json.num (nowMs / 1000 : Nat))] claims) =
      ("iat", Json.num (nowMs / 1000 : Nat)) :: claims ++
        (if 0 < e then [("exp", Json.num ((nowMs / 1000 : Nat) + e))] else [])
    by_cases hpos : 0 < e
    · rw [if_pos hpos, if_pos hpos, hb0,
        jsObjSet_append (("iat", Json.num (nowMs / 1000 : Nat)) :: claims) "exp"
          (Json.num ((nowMs / 1000 : Nat) + e))
          (by
            simp only [List.map_cons, List.mem_cons]
            rintro (hcase | hcase)
            · exact absurd hcase (by decide)
            · exact hexp hcase)]
    · rw [if_neg hpos, if_neg hpos, List.append_nil]
      exact hb0

/-- C6 (amended): for claims that do not themselves use the reserved
`iat`/`exp` keys, the signer produces exactly three dot-separated
segments, each unpadded URL-safe base64 (no `.`, `=`, `+`, `/` occurs in
a segment); the first decodes to the UTF-8 bytes of
`{"alg":"HS256","typ":"JWT"}`; the second decodes to the UTF-8 bytes of
the serialized payload, which is the original claims plus an issued-at
timestamp in seconds and — when a positive expiry is given — an expiry
equal to issued-at plus the expiry; the third is the encoding of the
HMAC-SHA256 digest (an external primitive, modelled as the function
parameter `hmac`) of the first two segments joined by a dot, keyed by the
secret.  Determinism holds by construction: the embedding is a pure
function of the claims, secret, expiry and current time.  (A claim
literally named `iat` or `exp` would instead override the generated
timestamp, see the counterexample.) -/
theorem C6_jwt_amended (hmac : String → String → List Nat) (nowMs : Nat)
    (claims : List (String × Json)) (secret : String) (eo : Option Int)
    (hnd : (claims.map Prod.fst).Nodup)
    (hiat : "iat" ∉ claims.map Prod.fst)
    (hexp : "exp" ∉ claims.map Prod.fst)
    (hdig : ∀ b ∈ hmac secret (encSeg jwtHeader ++ "." ++ encSeg (jwtBody nowMs claims eo)),
      b < 256) :
    generateJwt hmac nowMs claims secret eo =
      encSeg jwtHeader ++ "." ++ encSeg (jwtBody nowMs claims eo) ++ "." ++
        base64UrlEncode (hmac secret
          (encSeg jwtHeader ++ "." ++ encSeg (jwtBody nowMs claims eo)))
    ∧ urlSegOk (encSeg jwtHeader)
    ∧ urlSegOk (encSeg (jwtBody nowMs claims eo))
    ∧ urlSegOk (base64UrlEncode (hmac secret
        (encSeg jwtHeader ++ "." ++ encSeg (jwtBody nowMs claims eo))))
    ∧ base64UrlDecode (encSeg jwtHeader) =
        some (utf8Bytes "\x7b\"alg\":\"HS256\",\"typ\":\"JWT\"\x7d")
    ∧ base64UrlDecode (encSeg (jwtBody nowMs claims eo)) =
        some (utf8Bytes (jsonStringify (Json.obj (jwtBody nowMs claims eo))))
    ∧ jwtBody nowMs claims eo =
        ("iat", Json.num (nowMs / 1000 : Nat)) :: claims ++ jwtExpTail nowMs eo := by
  refine ⟨rfl, ?_, ?_, ?_, ?_, ?_, ?_⟩
  · exact b64UrlEncode_segOk _ (utf8Bytes_lt _)
  · exact b64UrlEncode_segOk _ (utf8Bytes_lt _)
  · exact b64UrlEncode_segOk _ hdig
  · exact base64Url_roundtrip _ (utf8Bytes_lt _)
  · exact base64Url_roundtrip _ (utf8Bytes_lt _)
  · exact jwtBody_eq nowMs claims eo hnd hiat hexp

/-- C6 counterexample: the claim quantifies over every claims object, but
a claims object already carrying an `iat` member overrides the generated
issued-at timestamp (`{ iat: nowSec, ...claims }` spreads the claims
last), so the payload contains no issued-at timestamp: with current time
1700000000123 ms the payload serializes to `{"iat":"boom"}` instead of
containing `"iat":1700000000`. -/
theorem C6_counterexample :
    jwtBody 1700000000123 [("iat", Json.str "boom")] none = [("iat", Json.str "boom")]
    ∧ jsonStringify (Json.obj (jwtBody 1700000000123 [("iat", Json.str "boom")] none)) =
        "\x7b\"iat\":\"boom\"\x7d" := by
  exact ⟨rfl, rfl⟩

/-- Witness for C6: a concrete signing call with one claim, an expiry and
a fixed digest function. -/
theorem C6_witness :
    ((([("sub", Json.str "u1")] : List (String × Json)).map Prod.fst).Nodup
      ∧ "iat" ∉ ([("sub", Json.str "u1")] : List (String × Json)).map Prod.fst
      ∧ "exp" ∉ ([("sub", Json.str "u1")] : List (String × Json)).map Prod.fst
      ∧ ∀ b ∈ [171, 205, 239], b < 256)
    ∧ generateJwt (fun _ _ => ([171, 205, 239] : List Nat)) 1700000000123
        [("sub", Json.str "u1")] "secret-1" (some 60) =
      encSeg jwtHeader ++ "." ++
        encSeg (jwtBody 1700000000123 [("sub", Json.str "u1")] (some 60)) ++ "." ++
        base64UrlEncode [171, 205, 239]
    ∧ jwtBody 1700000000123 [("sub", Json.str "u1")] (some 60) =
        [("iat", Json.num 1700000000), ("sub", Json.str "u1"), ("exp", Json.num 1700000060)] := by
  have h := C6_jwt_amended (fun _ _ => ([171, 205, 239] : List Nat)) 1700000000123
    [("sub", Json.str "u1")] "secret-1" (some 60)
    (by decide) (by decide) (by decide) (by decide)
  refine ⟨⟨by decide, by decide, by decide, by decide⟩, h.1, ?_⟩
  exact h.2.2.2.2.2.2.trans (by rfl)

end LogMw
